import Mathlib

/-!
Verification of the query-condition language and compiler of the nestjs-crud
repository (packages crud / crud-request / crud-typeorm).

The definitions below are a shallow embedding of the TypeScript sources:
  * `CrudRequestInterceptor` (request assembler),
  * `RequestQueryParser` (condition parser),
  * `TypeOrmCrudService` (condition compiler, joins, select lists, paging).

JavaScript values flowing through the condition language are modelled by the
`JsVal` type below; the query-builder state built by TypeORM `andWhere` /
`orWhere` / `Brackets` calls is modelled by lists of typed where-entries.
`process.hrtime()`-derived parameter names are modelled by an abstract supply
`hr : Nat -> String` consumed one entry per generated parameter, threaded as a
counter through the compiler; compiling the same tree against the same supply
yields the same parameter names, which is exactly the notion of structural
equality used in the theorems.
-/

set_option maxHeartbeats 1000000

namespace NestjsCrud

/-- A JSON-ish JavaScript value: the universe of filter values and search
condition trees (`SCondition` in the sources is an arbitrary JS object). -/
inductive JsVal where
  | null
  | undef
  | bool (b : Bool)
  | num (n : Int)
  | str (s : String)
  | arr (elems : List JsVal)
  | obj (entries : List (String × JsVal))

/-- JavaScript truthiness for `JsVal` (`undefined`, `null`, `false`, `0`, `""`
are falsy, everything else truthy). -/
def jsTruthy : JsVal → Bool
  | .null => false
  | .undef => false
  | .bool b => b
  | .num n => !(n == 0)
  | .str s => !(s == "")
  | .arr _ => true
  | .obj _ => true

/-- `isNil` from `@n4it/crud-util`: value is `null` or `undefined`. -/
def isNil : JsVal → Bool
  | .null => true
  | .undef => true
  | _ => false

/-- `isNull` from `@n4it/crud-util`: value is exactly `null`. -/
def isNullVal : JsVal → Bool
  | .null => true
  | _ => false

/-- Modelled from the spec: `isObject` from `@n4it/crud-util` (the util
package is not under src/).  Per the spec an "object" is a key→value map:
step 2 of the parser algorithm requires "valid JSON representing an object"
and the compiler dispatch asks whether a field's value "is a map of
operator → value"; scalars, arrays, `null` and `undefined` are not objects. -/
def isObject : JsVal → Bool
  | .obj _ => true
  | _ => false

/-- `isArrayFull` from `@n4it/crud-util`: an array with at least one item. -/
def isArrayFull : JsVal → Bool
  | .arr (_ :: _) => true
  | _ => false

/-- JS `value.length` where it exists (arrays and strings), `none` otherwise
(`undefined` in JS). -/
def jsLength : JsVal → Option Nat
  | .arr xs => some xs.length
  | .str s => some s.length
  | _ => none

/-- `objKeys` from `@n4it/crud-util` (`Object.keys`): keys of an object,
index strings of an array, `[]` for primitives. -/
def objKeys : JsVal → List String
  | .obj entries => entries.map (·.1)
  | .arr xs => (List.range xs.length).map toString
  | _ => []

/-- JS string coercion (template literals such as `` `${cond.value}%` ``):
arrays join their coerced elements with commas, plain objects render as
`[object Object]`. -/
def jsToStr : JsVal → String
  | .null => "null"
  | .undef => "undefined"
  | .bool b => if b then "true" else "false"
  | .num n => toString n
  | .str s => s
  | .arr xs => String.intercalate "," (xs.attach.map (fun x => jsToStr x.1))
  | .obj _ => "[object Object]"
decreasing_by
  have h := List.sizeOf_lt_of_mem x.2
  simp only [JsVal.arr.sizeOf_spec]
  omega

/-- A parsed leaf condition `{field, operator, value}` (`QueryFilter`). -/
structure QueryFilterC where
  field : String
  operator : String
  value : JsVal

/-- A parsed sort directive `{field, order}` (`QuerySort`). -/
structure QuerySortC where
  field : String
  order : String

/-- A parsed join directive `{field, select?, on?}` (`QueryJoin`). -/
structure QueryJoinC where
  field : String
  select : Option (List String)
  onCond : Option (List QueryFilterC)

/-- Errors thrown by the service (`throwBadRequestException` only, for the
claims at hand). -/
inductive CrudErr where
  | badRequest (msg : String)

/-- Errors thrown by the request parser (`RequestQueryException`). -/
inductive RQErr where
  | queryParse (msg : String)

/- ------------------------------------------------------------------
SQL-injection signature patterns (`TypeOrmCrudService.sqlInjectionRegEx`).

The four source regexes, all flagged `gi`:
  1. `(%27)|(')|(--)|(%23)|(#)`
  2. `((%3D)|(=))[^\n]*((%27)|(')|(--)|(%3B)|(;))`
  3. `w*((%27)|('))((%6F)|o|(%4F))((%72)|r|(%52))`
  4. `((%27)|('))union`
They are modelled as pure "matches somewhere in the string" predicates.  The
`g` flag makes `RegExp.test` stateful through `lastIndex`, but `lastIndex` is
`0` at every test that precedes the first match within a compilation of a
fresh service (a failed test resets it, a successful test throws), so the
pure predicates are faithful for a single request.  Alternation is an
existential over match positions; `w*` in pattern 3 is nullable and therefore
drops out.  Case-insensitivity is handled by comparing lowercased characters
(patterns are written lowercased).
------------------------------------------------------------------ -/

/-- The apostrophe character. -/
def quoteChar : Char := Char.ofNat 39

/-- Case-insensitive character equality (the `i` regex flag). -/
def ciEq (a b : Char) : Bool := a.toLower == b.toLower

/-- Does the pattern (first argument) match a prefix of the string,
case-insensitively? -/
def startsWithCI : List Char → List Char → Bool
  | [], _ => true
  | _ :: _, [] => false
  | p :: ps, c :: cs => ciEq p c && startsWithCI ps cs

/-- Does any of the tokens match at the head of the string? -/
def anyTok (toks : List (List Char)) (s : List Char) : Bool :=
  toks.any (fun t => startsWithCI t s)

/-- Does `f` hold of some suffix of the string (existential match position)? -/
def scanAny (f : List Char → Bool) : List Char → Bool
  | [] => f []
  | c :: cs => f (c :: cs) || scanAny f cs

/-- Tokens of pattern 1: `(%27)|(')|(--)|(%23)|(#)`. -/
def injToks1 : List (List Char) :=
  ["%27".data, [quoteChar], ['-', '-'], "%23".data, ['#']]

/-- Pattern 1 matches somewhere. -/
def injPat1 (s : List Char) : Bool := scanAny (anyTok injToks1) s

/-- End tokens of pattern 2: `(%27)|(')|(--)|(%3B)|(;)`. -/
def injToks2 : List (List Char) :=
  ["%27".data, [quoteChar], ['-', '-'], "%3b".data, [';']]

/-- After the `=` of pattern 2: skip non-newline characters (`[^\n]*`) until
one of the end tokens matches. -/
def injPat2Tail : List Char → Bool
  | [] => false
  | c :: cs => anyTok injToks2 (c :: cs) || (!(c == '\n') && injPat2Tail cs)

/-- Pattern 2 matches at the head: `((%3D)|(=))` then `injPat2Tail`. -/
def injPat2Head (s : List Char) : Bool :=
  (startsWithCI ['='] s && injPat2Tail (s.drop 1)) ||
  (startsWithCI "%3d".data s && injPat2Tail (s.drop 3))

/-- Pattern 2 matches somewhere. -/
def injPat2 (s : List Char) : Bool := scanAny injPat2Head s

/-- The `r` alternatives of pattern 3: `(%72)|r|(%52)`. -/
def injPat3R (s : List Char) : Bool :=
  startsWithCI ['r'] s || startsWithCI "%72".data s || startsWithCI "%52".data s

/-- The `o` alternatives of pattern 3, followed by the `r` alternatives. -/
def injPat3O (s : List Char) : Bool :=
  (startsWithCI ['o'] s && injPat3R (s.drop 1)) ||
  (startsWithCI "%6f".data s && injPat3R (s.drop 3)) ||
  (startsWithCI "%4f".data s && injPat3R (s.drop 3))

/-- Pattern 3 matches at the head: a quote alternative, then `o`, then `r`
(the nullable `w*` prefix drops out of the existential match). -/
def injPat3Head (s : List Char) : Bool :=
  (startsWithCI [quoteChar] s && injPat3O (s.drop 1)) ||
  (startsWithCI "%27".data s && injPat3O (s.drop 3))

/-- Pattern 3 matches somewhere. -/
def injPat3 (s : List Char) : Bool := scanAny injPat3Head s

/-- Pattern 4 matches at the head: a quote alternative then `union`. -/
def injPat4Head (s : List Char) : Bool :=
  (startsWithCI [quoteChar] s && startsWithCI "union".data (s.drop 1)) ||
  (startsWithCI "%27".data s && startsWithCI "union".data (s.drop 3))

/-- Pattern 4 matches somewhere. -/
def injPat4 (s : List Char) : Bool := scanAny injPat4Head s

/-- Some pattern of `sqlInjectionRegEx` matches the string (the source loop
throws on the first regex that tests positive, so the four tests collapse to
a disjunction). -/
def sqlInjectionMatch (s : String) : Bool :=
  injPat1 s.data || injPat2 s.data || injPat3 s.data || injPat4 s.data

/-- `TypeOrmCrudService.checkSqlInjection`: returns the field unchanged or
throws a bad-request error when some signature pattern matches. -/
def checkSqlInjection (field : String) : Except CrudErr String :=
  if sqlInjectionMatch field then
    .error (.badRequest ("SQL injection detected: \"" ++ field ++ "\""))
  else
    .ok field

/- ------------------------------------------------------------------
`TypeOrmCrudService` context and the operator-to-SQL compiler.
------------------------------------------------------------------ -/

/-- Immutable per-service data of `TypeOrmCrudService`: the connection type,
the root alias (`repo.metadata.targetName`), `entityColumnsHash` (logical
name → database path; a JS object, so a missing key reads as `undefined`),
and the column-type lookup used by `getColumnType`.  `hr` is the supply of
`process.hrtime()` strings used for parameter names, indexed by call count. -/
structure SvcCtx where
  dbName : String
  rootAlias : String
  columnsHash : String → Option String
  columnType : String → String
  hr : Nat → String

/-- Splitting on `'.'`, accumulator form (JS `field.split('.')`). -/
def splitDotGo : List Char → List Char → List String
  | [], acc => [String.mk acc.reverse]
  | c :: cs, acc =>
    if c == '.' then String.mk acc.reverse :: splitDotGo cs []
    else splitDotGo cs (c :: acc)

/-- JS `field.split('.')`. -/
def splitDot (s : String) : List String := splitDotGo s.data []

/-- `TypeOrmCrudService.getFieldWithAlias`.  For a single-segment field the
database column name is `entityColumnsHash[field] !== field ?
entityColumnsHash[field] : field`; when the hash has no entry this reads the
JS `undefined`, which the template string renders as the text `undefined`. -/
def getFieldWithAlias (ctx : SvcCtx) (field : String) (sort : Bool) : String :=
  let i := if ctx.dbName == "mysql" || ctx.dbName == "mariadb" then
    (Char.ofNat 96).toString else "\""
  let cols := splitDot field
  if cols.length == 1 then
    if sort then
      ctx.rootAlias ++ "." ++ field
    else
      let dbColName := (ctx.columnsHash field).getD "undefined"
      i ++ ctx.rootAlias ++ i ++ "." ++ i ++ dbColName ++ i
  else if cols.length == 2 then
    field
  else
    String.intercalate "." (cols.drop (cols.length - 2))

/-- The in-place operator normalization in `mapOperatorsToQuery`:
`if (cond.operator[0] !== '$') cond.operator = '$' + cond.operator`. -/
def normalizeOp (op : String) : String :=
  if op.data.head? == some '$' then op else "$" ++ op

/-- `TypeOrmCrudService.checkFilterIsArray`: throws `Invalid column '<field>'
value` when the value is not an array, is an empty array, or the optional
`withLength` flag is set (`!isNil(withLength) ? withLength : false`). -/
def checkFilterIsArray (field : String) (v : JsVal) (withLength : Option Bool) :
    Except CrudErr Unit :=
  if !(isArrayFull v) || withLength.getD false then
    .error (.badRequest ("Invalid column \x27" ++ field ++ "\x27 value"))
  else
    .ok ()

/-- A registered custom operator (`CustomOperators[op]`): an optional
array-arity flag, the SQL fragment builder `query(field, param)` and optional
replacement parameters. -/
structure CustomOp where
  isArray : Bool
  query : String → String → String
  params : Option (List (String × JsVal))

/-- Lookup of `customOperators[op]`. -/
def lookupCustom (custom : List (String × CustomOp)) (op : String) : Option CustomOp :=
  (custom.find? (fun p => p.1 == op)).map (·.2)

/-- `TypeOrmCrudService.mapOperatorsToQuery`: lowers one leaf condition to a
SQL fragment plus bound parameters, or throws a bad-request error. -/
def mapOperatorsToQuery (ctx : SvcCtx) (custom : List (String × CustomOp))
    (cond : QueryFilterC) (param : String) :
    Except CrudErr (String × List (String × JsVal)) :=
  let field := getFieldWithAlias ctx cond.field false
  let likeOperator := if ctx.dbName == "postgres" then "ILIKE" else "LIKE"
  let defParams : List (String × JsVal) := [(param, cond.value)]
  let op := normalizeOp cond.operator
  match op with
  | "$eq" => .ok (field ++ " = :" ++ param, defParams)
  | "$ne" => .ok (field ++ " != :" ++ param, defParams)
  | "$gt" => .ok (field ++ " > :" ++ param, defParams)
  | "$lt" => .ok (field ++ " < :" ++ param, defParams)
  | "$gte" => .ok (field ++ " >= :" ++ param, defParams)
  | "$lte" => .ok (field ++ " <= :" ++ param, defParams)
  | "$starts" =>
    .ok (field ++ " LIKE :" ++ param, [(param, .str (jsToStr cond.value ++ "%"))])
  | "$ends" =>
    .ok (field ++ " LIKE :" ++ param, [(param, .str ("%" ++ jsToStr cond.value))])
  | "$cont" =>
    .ok (field ++ " LIKE :" ++ param, [(param, .str ("%" ++ jsToStr cond.value ++ "%"))])
  | "$excl" =>
    .ok (field ++ " NOT LIKE :" ++ param,
      [(param, .str ("%" ++ jsToStr cond.value ++ "%"))])
  | "$in" =>
    match checkFilterIsArray cond.field cond.value none with
    | .error e => .error e
    | .ok _ => .ok (field ++ " IN (:..." ++ param ++ ")", defParams)
  | "$notin" =>
    match checkFilterIsArray cond.field cond.value none with
    | .error e => .error e
    | .ok _ => .ok (field ++ " NOT IN (:..." ++ param ++ ")", defParams)
  | "$isnull" => .ok (field ++ " IS NULL", [])
  | "$notnull" => .ok (field ++ " IS NOT NULL", [])
  | "$between" =>
    match checkFilterIsArray cond.field cond.value
        (some (!(jsLength cond.value == some 2))) with
    | .error e => .error e
    | .ok _ =>
      match cond.value with
      | .arr [a, b] =>
        .ok (field ++ " BETWEEN :" ++ param ++ "0 AND :" ++ param ++ "1",
          [(param ++ "0", a), (param ++ "1", b)])
      | _ => .ok (field, [])   -- unreachable: the arity check above has thrown
  | "$eqL" => .ok ("LOWER(" ++ field ++ ") = :" ++ param, defParams)
  | "$neL" => .ok ("LOWER(" ++ field ++ ") != :" ++ param, defParams)
  | "$startsL" =>
    .ok ("LOWER(" ++ field ++ ") " ++ likeOperator ++ " :" ++ param,
      [(param, .str (jsToStr cond.value ++ "%"))])
  | "$endsL" =>
    .ok ("LOWER(" ++ field ++ ") " ++ likeOperator ++ " :" ++ param,
      [(param, .str ("%" ++ jsToStr cond.value))])
  | "$contL" =>
    .ok ("LOWER(" ++ field ++ ") " ++ likeOperator ++ " :" ++ param,
      [(param, .str ("%" ++ jsToStr cond.value ++ "%"))])
  | "$exclL" =>
    .ok ("LOWER(" ++ field ++ ") NOT " ++ likeOperator ++ " :" ++ param,
      [(param, .str ("%" ++ jsToStr cond.value ++ "%"))])
  | "$inL" =>
    match checkFilterIsArray cond.field cond.value none with
    | .error e => .error e
    | .ok _ => .ok ("LOWER(" ++ field ++ ") IN (:..." ++ param ++ ")", defParams)
  | "$notinL" =>
    match checkFilterIsArray cond.field cond.value none with
    | .error e => .error e
    | .ok _ => .ok ("LOWER(" ++ field ++ ") NOT IN (:..." ++ param ++ ")", defParams)
  | "$contArr" =>
    match checkFilterIsArray cond.field cond.value none with
    | .error e => .error e
    | .ok _ => .ok (field ++ " @> ARRAY[:..." ++ param ++ "]::" ++
        ctx.columnType cond.field ++ "[]", defParams)
  | "$intersectsArr" =>
    match checkFilterIsArray cond.field cond.value none with
    | .error e => .error e
    | .ok _ => .ok (field ++ " && ARRAY[:..." ++ param ++ "]::" ++
        ctx.columnType cond.field ++ "[]", defParams)
  | other =>
    match lookupCustom custom other with
    | none => pure (field ++ " = :" ++ param, defParams)
    | some customOperator =>
      -- the body runs in a try/catch: the arity failure is rethrown as
      -- `Invalid custom operator '<field>' query`
      if customOperator.isArray && !(isArrayFull cond.value) then
        .error (.badRequest ("Invalid custom operator \x27" ++ field ++ "\x27 query"))
      else
        .ok (customOperator.query field param,
          customOperator.params.getD defParams)

/-- `TypeOrmCrudService.mapSort`, written as an explicit accumulator loop:
resolve each sort field with the alias, run it through `checkSqlInjection`,
and record `params[checkedField] = order`.  JS object insertion is modelled
by an association-list append (sort fields are distinct in practice). -/
def mapSortGo (ctx : SvcCtx) : List QuerySortC → List (String × String) →
    Except CrudErr (List (String × String))
  | [], acc => .ok acc
  | s :: rest, acc =>
    match checkSqlInjection (getFieldWithAlias ctx s.field true) with
    | .error e => .error e
    | .ok checkedField => mapSortGo ctx rest (acc ++ [(checkedField, s.order)])

/-- `TypeOrmCrudService.mapSort`. -/
def mapSort (ctx : SvcCtx) (sort : List QuerySortC) :
    Except CrudErr (List (String × String)) :=
  mapSortGo ctx sort []

/- ------------------------------------------------------------------
The query-builder where-state and `setSearchCondition`.

TypeORM's `expressionMap.wheres` is a list of `{type: and|or, condition}`
entries; a `Brackets` argument is resolved eagerly into a sub-list (its
factory runs inside `getWhereCondition` before the entry is pushed), and the
hand-rolled negated group of `builderAddBrackets` wraps such a sub-list in a
`not` operator.  `builderSetWhere` generates its parameter-name suffix from
`process.hrtime()`; here the supply `ctx.hr` is consumed at index `n` and the
counter `n` is threaded in JS evaluation order.
------------------------------------------------------------------ -/

/-- A where-entry type: `'$and'` combines with `andWhere`, `'$or'` with
`orWhere` (`SConditionKey`). -/
inductive CKey where
  | and
  | or

/-- A where-condition: a leaf SQL fragment with its bound parameters, a
bracket group, or the negated bracket group built by `builderAddBrackets`
with `negated = true`. -/
inductive WCond where
  | leaf (str : String) (params : List (String × JsVal))
  | brackets (ws : List (CKey × WCond))
  | notBrackets (ws : List (CKey × WCond))

/-- `TypeOrmCrudService.builderAddBrackets`: the where-entry pushed for a
(possibly negated) bracket group under the given combinator. -/
def builderAddBrackets (cond : CKey) (negated : Bool) (ws : List (CKey × WCond)) :
    CKey × WCond :=
  if negated then (cond, .notBrackets ws) else (cond, .brackets ws)

/-- `TypeOrmCrudService.builderSetWhere`: defaults the operator to `$eq`
(`$isnull` when the value is `null`), derives the parameter index from the
field name with every character replaced by `_` (`field.replace(/./g, '_')`,
which spares only line terminators) plus the `hrtime` string, and emits one
`andWhere`/`orWhere` leaf entry. -/
def builderSetWhere (ctx : SvcCtx) (custom : List (String × CustomOp))
    (cond : CKey) (field : String) (value : JsVal) (operator : String) (n : Nat) :
    Except CrudErr ((CKey × WCond) × Nat) :=
  let safeFieldName := String.mk (field.data.map
    (fun c => if c == '\n' || c == '\r' then c else '_'))
  let index := safeFieldName ++ ctx.hr n
  let pname := (match cond with | .and => "andWhere" | .or => "orWhere") ++ index
  let op := if isNullVal value then "$isnull" else operator
  match mapOperatorsToQuery ctx custom
      { field := field, operator := op, value := value } pname with
  | .error e => .error e
  | .ok (str, params) => .ok ((cond, .leaf str params), n + 1)

/-- Value of a combinator key in a condition object when it is a non-empty
array (`isArrayFull(search.$and)` over the JS property lookup). -/
def lookupArrFull (k : String) (entries : List (String × JsVal)) :
    Option (List JsVal) :=
  match entries.find? (fun p => p.1 == k) with
  | some (_, .arr xs) => if xs.isEmpty then none else some xs
  | _ => none

/-- A non-empty combinator array found by `lookupArrFull` is smaller than the
object holding it (termination measure for `setSearchCondition`). -/
theorem lookupArrFull_sizeOf {k : String} {entries : List (String × JsVal)}
    {xs : List JsVal} (h : lookupArrFull k entries = some xs) :
    sizeOf xs < sizeOf (JsVal.obj entries) := by
  unfold lookupArrFull at h
  cases hf : entries.find? (fun p => p.1 == k) with
  | none => rw [hf] at h; simp at h
  | some p =>
    rw [hf] at h
    obtain ⟨k2, v⟩ := p
    have hm := List.mem_of_find?_eq_some hf
    have hs := List.sizeOf_lt_of_mem hm
    cases v <;> simp at h
    case arr l =>
      obtain ⟨-, h2⟩ := h
      subst h2
      simp only [Prod.mk.sizeOf_spec, JsVal.arr.sizeOf_spec, JsVal.obj.sizeOf_spec] at *
      omega

mutual

/-- `TypeOrmCrudService.setSearchFieldObjectCondition`: compiles a field
whose value is an operator→value map.  A single non-`$or` operator goes
straight to `builderSetWhere`; otherwise a bracket group is opened and the
operators are walked in order (`setSearchFieldObjectConditionFold`).  Returns
the where-entries appended to the builder it was called with. -/
def setSearchFieldObjectCondition (ctx : SvcCtx) (custom : List (String × CustomOp))
    (cond : CKey) (field : String) (object : JsVal) (n : Nat) :
    Except CrudErr (List (CKey × WCond) × Nat) :=
  match object with
  | .obj entries =>
    let general := fun (_ : Unit) =>
      match setSearchFieldObjectConditionFold ctx custom cond field entries n with
      | .error e => .error e
      | .ok (ws, n2) => .ok ([builderAddBrackets cond false ws], n2)
    match entries with
    | [(op, v)] =>
      if op != "$or" then
        match builderSetWhere ctx custom cond field v op n with
        | .error e => .error e
        | .ok (e, n2) => .ok ([e], n2)
      else
        general ()
    | _ => general ()
  | _ => .ok ([], n)
termination_by sizeOf object
decreasing_by all_goals (simp_wf <;> omega)

/-- The `operators.forEach` body of `setSearchFieldObjectCondition`, walking
the operator entries of one field object in order.  Object keys are unique in
JS, so iterating (key, value) pairs coincides with iterating `objKeys` and
reading `object[operator]`.  A non-`$or` operator emits a leaf with the
inherited combinator; a `$or` value with a single key recurses in place, with
several keys it recurses inside a further bracket group under `$or`. -/
def setSearchFieldObjectConditionFold (ctx : SvcCtx)
    (custom : List (String × CustomOp)) (cond : CKey) (field : String) :
    List (String × JsVal) → Nat → Except CrudErr (List (CKey × WCond) × Nat)
  | [], n => .ok ([], n)
  | (op, v) :: rest, n =>
    let step : Except CrudErr (List (CKey × WCond) × Nat) :=
      if op != "$or" then
        match builderSetWhere ctx custom cond field v op n with
        | .error e => .error e
        | .ok (e, n2) => .ok ([e], n2)
      else
        if (objKeys v).length == 1 then
          setSearchFieldObjectCondition ctx custom cond field v n
        else
          match setSearchFieldObjectCondition ctx custom .or field v n with
          | .error e => .error e
          | .ok (ws, n2) => .ok ([builderAddBrackets cond false ws], n2)
    match step with
    | .error e => .error e
    | .ok (es, n2) =>
      match setSearchFieldObjectConditionFold ctx custom cond field rest n2 with
      | .error e => .error e
      | .ok (es2, n3) => .ok (es ++ es2, n3)
termination_by l _ => sizeOf l
decreasing_by all_goals (simp_wf <;> omega)

end

/-- The leaf branch of `setSearchCondition` for an object with several plain
fields: each field is `$and`-combined inside the surrounding bracket group
(`builderSetWhere` for scalar values, `setSearchFieldObjectCondition` for
operator maps). -/
def setSearchConditionLeafFold (ctx : SvcCtx) (custom : List (String × CustomOp)) :
    List (String × JsVal) → Nat → Except CrudErr (List (CKey × WCond) × Nat)
  | [], n => .ok ([], n)
  | (field, value) :: rest, n =>
    let step : Except CrudErr (List (CKey × WCond) × Nat) :=
      if !(isObject value) then
        match builderSetWhere ctx custom .and field value "$eq" n with
        | .error e => .error e
        | .ok (e, n2) => .ok ([e], n2)
      else
        setSearchFieldObjectCondition ctx custom .and field value n
    match step with
    | .error e => .error e
    | .ok (es, n2) =>
      match setSearchConditionLeafFold ctx custom rest n2 with
      | .error e => .error e
      | .ok (es2, n3) => .ok (es ++ es2, n3)

mutual

/-- `TypeOrmCrudService.setSearchCondition`: lowers a search condition tree
into where-entries.  The result is the list of entries appended to the
builder the function was called with, together with the advanced `hrtime`
counter; in the mixed `$or`-with-siblings case, entries produced for the
outer builder by the single-element `$or` collapse precede the bracket entry
because the `Brackets` factory runs before the entry is pushed. -/
def setSearchCondition (ctx : SvcCtx) (custom : List (String × CustomOp))
    (search : JsVal) (cond : CKey) (n : Nat) :
    Except CrudErr (List (CKey × WCond) × Nat) :=
  match search with
  | .obj entries =>
    if entries.isEmpty then .ok ([], n)
    else
      match h1 : lookupArrFull "$not" entries with
      | some xs =>
        -- search: {$not: [...]}: children are `$and`-combined inside a
        -- negated bracket group
        match setSearchConditionChildren ctx custom xs .and n with
        | .error e => .error e
        | .ok (ws, n2) => .ok ([builderAddBrackets cond true ws], n2)
      | none =>
        match h2 : lookupArrFull "$and" entries with
        | some [x] =>
          -- search: {$and: [{}]}: collapse onto the sole child
          setSearchCondition ctx custom x cond n
        | some xs =>
          -- search: {$and: [{}, {}, ...]}
          match setSearchConditionChildren ctx custom xs .and n with
          | .error e => .error e
          | .ok (ws, n2) => .ok ([builderAddBrackets cond false ws], n2)
        | none =>
          match h3 : lookupArrFull "$or" entries with
          | some xs =>
            if entries.length == 1 then
              match h4 : xs with
              | [x] =>
                -- search: {$or: [{}]}: collapse onto the sole child
                setSearchCondition ctx custom x cond n
              | _ =>
                -- search: {$or: [{}, {}, ...]}
                match setSearchConditionChildren ctx custom xs .or n with
                | .error e => .error e
                | .ok (ws, n2) => .ok ([builderAddBrackets cond false ws], n2)
            else
              -- search: {$or: [...], foo, ...}
              match setSearchConditionMixedFold ctx custom entries n with
              | .error e => .error e
              | .ok (inner, outer, n2) =>
                .ok (outer ++ [builderAddBrackets cond false inner], n2)
          | none =>
            match entries with
            | [(field, value)] =>
              -- search: {foo}
              if !(isObject value) then
                match builderSetWhere ctx custom cond field value "$eq" n with
                | .error e => .error e
                | .ok (e, n2) => .ok ([e], n2)
              else
                setSearchFieldObjectCondition ctx custom cond field value n
            | _ =>
              -- search: {foo, ...}
              match setSearchConditionLeafFold ctx custom entries n with
              | .error e => .error e
              | .ok (ws, n2) => .ok ([builderAddBrackets cond false ws], n2)
  | _ => .ok ([], n)
termination_by sizeOf search
decreasing_by
  all_goals simp_wf
  all_goals try omega
  all_goals
    first
    | (have h := lookupArrFull_sizeOf h1
       simp only [JsVal.obj.sizeOf_spec, List.cons.sizeOf_spec,
         List.nil.sizeOf_spec] at *
       omega)
    | (have h := lookupArrFull_sizeOf h2
       simp only [JsVal.obj.sizeOf_spec, List.cons.sizeOf_spec,
         List.nil.sizeOf_spec] at *
       omega)
    | (have h := lookupArrFull_sizeOf h3
       subst h4
       simp only [JsVal.obj.sizeOf_spec, List.cons.sizeOf_spec,
         List.nil.sizeOf_spec] at *
       omega)
    | (have h := lookupArrFull_sizeOf h3
       simp only [JsVal.obj.sizeOf_spec, List.cons.sizeOf_spec,
         List.nil.sizeOf_spec] at *
       omega)

/-- The children loop shared by the `$not`, multi-element `$and` and `$or`
branches: each child recurses with the given combinator inside the bracket
group being built, in order. -/
def setSearchConditionChildren (ctx : SvcCtx) (custom : List (String × CustomOp))
    (xs : List JsVal) (k : CKey) (n : Nat) :
    Except CrudErr (List (CKey × WCond) × Nat) :=
  match xs with
  | [] => .ok ([], n)
  | x :: rest =>
    match setSearchCondition ctx custom x k n with
    | .error e => .error e
    | .ok (es, n2) =>
      match setSearchConditionChildren ctx custom rest k n2 with
      | .error e => .error e
      | .ok (es2, n3) => .ok (es ++ es2, n3)
termination_by sizeOf xs
decreasing_by all_goals (simp_wf <;> omega)

/-- The `keys.forEach` body of the mixed `{$or: [...], foo, ...}` branch of
`setSearchCondition`.  Non-`$or` keys are `$and`-combined inside the bracket
group (`inner`); a `$or` value with several elements opens a further
`$and`-typed bracket inside the group whose children recurse with `$or`; but
a `$or` value with exactly one element recurses on that element against the
OUTER builder (`builder`, not `qb`, in the source) with `$and` — those
entries are returned in `outer`.  Object keys are unique in JS, so iterating
the (key, value) pairs coincides with reading `search.$or` per key. -/
def setSearchConditionMixedFold (ctx : SvcCtx) (custom : List (String × CustomOp))
    (entries : List (String × JsVal)) (n : Nat) :
    Except CrudErr (List (CKey × WCond) × List (CKey × WCond) × Nat) :=
  match entries with
  | [] => .ok ([], [], n)
  | (k, v) :: rest =>
    let step : Except CrudErr (List (CKey × WCond) × List (CKey × WCond) × Nat) :=
      if k != "$or" then
        if !(isObject v) then
          match builderSetWhere ctx custom .and k v "$eq" n with
          | .error e => .error e
          | .ok (e, n2) => .ok ([e], [], n2)
        else
          match setSearchFieldObjectCondition ctx custom .and k v n with
          | .error e => .error e
          | .ok (es, n2) => .ok (es, [], n2)
      else
        match v with
        | .arr [x] =>
          match setSearchCondition ctx custom x .and n with
          | .error e => .error e
          | .ok (es, n2) => .ok ([], es, n2)
        | .arr xs =>
          match setSearchConditionChildren ctx custom xs .or n with
          | .error e => .error e
          | .ok (ws, n2) => .ok ([builderAddBrackets .and false ws], [], n2)
        | _ =>
          -- unreachable for a well-formed object: this branch is only
          -- entered when the dispatch saw `search.$or` as a non-empty array
          .ok ([], [], n)
    match step with
    | .error e => .error e
    | .ok (inner, outer, n2) =>
      match setSearchConditionMixedFold ctx custom rest n2 with
      | .error e => .error e
      | .ok (inner2, outer2, n3) => .ok (inner ++ inner2, outer ++ outer2, n3)
termination_by sizeOf entries
decreasing_by all_goals (simp_wf <;> omega)

end

/- ------------------------------------------------------------------
`CrudRequestInterceptor`: assembling the final search condition.
------------------------------------------------------------------ -/

/-- `RequestQueryParser.convertFilterToSearch`: one parsed filter becomes
`{field: {operator: value}}`; the empty-value operators `isnull`/`notnull`
(bare names, without `$`) take the value `true` from the `isEmptyValue`
lookup table. -/
def convertFilterToSearch (f : QueryFilterC) : JsVal :=
  .obj [(f.field, .obj [(f.operator,
    if f.operator == "isnull" || f.operator == "notnull" then .bool true
    else f.value)])]

/-- The shape of `CrudOptions.query.filter`: a filter function, an array of
`QueryFilter`s, or a single search condition (possibly absent). -/
inductive FilterOpt where
  | fn (f : Option JsVal → Bool → JsVal)
  | arr (fs : List QueryFilterC)
  | cond (c : Option JsVal)

/-- Whether the configured filter is a function (`isFunction` check). -/
def FilterOpt.isFn : FilterOpt → Bool
  | .fn _ => true
  | _ => false

/-- The `optionsFilter` list of `CrudRequestInterceptor.getSearch` (non-
function case): a full array maps through `convertFilterToSearch`; otherwise
`[(filter as SCondition) || {}]` — an empty configured array is truthy in JS
and passes through (an empty condition), an absent filter yields `{}`. -/
def optionsFilterOf : FilterOpt → List JsVal
  | .fn _ => []
  | .arr (f :: fs) => (f :: fs).map convertFilterToSearch
  | .arr [] => [.obj []]
  | .cond (some c) => [if jsTruthy c then c else .obj []]
  | .cond none => [.obj []]

/-- The client-search tie-break of `CrudRequestInterceptor.getSearch`
(lines picking between `parser.search`, `parser.filter` and `parser.or`).
A present `search` wins; otherwise: both lists non-empty and both singletons
collapse into one `$or` pair; both non-empty otherwise into
`{$or: [{$and: filters}, {$and: ors}]}`; only filters map one-by-one; a
single `or` entry passes through unwrapped; several wrap in `$or`. -/
def getSearchClientPart (parserSearch : Option JsVal)
    (pFilter pOr : List QueryFilterC) : List JsVal :=
  match parserSearch with
  | some s => [s]
  | none =>
    match pFilter, pOr with
    | fs, [] => fs.map convertFilterToSearch
    | [], [o] => [convertFilterToSearch o]
    | [], os => [.obj [("$or", .arr (os.map convertFilterToSearch))]]
    | [f], [o] =>
      [.obj [("$or", .arr [convertFilterToSearch f, convertFilterToSearch o])]]
    | fs, os =>
      [.obj [("$or", .arr [.obj [("$and", .arr (fs.map convertFilterToSearch))],
        .obj [("$and", .arr (os.map convertFilterToSearch))]])]]

/-- `CrudRequestInterceptor.getSearch`: `paramsSearch` plus, when the
configured filter is a function, its (`|| {}`-defaulted) result; otherwise
the `optionsFilter` list and the client search. -/
def getSearch (parserSearch : Option JsVal) (pFilter pOr : List QueryFilterC)
    (paramsSearch : List JsVal) (fopt : FilterOpt) (isReadAll : Bool) :
    List JsVal :=
  match fopt with
  | .fn f =>
    let r := f parserSearch isReadAll
    paramsSearch ++ [if jsTruthy r then r else .obj []]
  | _ => paramsSearch ++ optionsFilterOf fopt ++
      getSearchClientPart parserSearch pFilter pOr

/-- The `or`/`filter` functions of `CrudOptions.auth` (each optional; a JS
function may return a falsy value, hence `JsVal` results). -/
structure AuthOpt where
  orFn : Option (JsVal → JsVal)
  filterFn : Option (JsVal → JsVal)

/-- What `CrudRequestInterceptor.getAuth` computes: `auth.or`, `auth.filter`
(`undefined` when not set) and whether the filter function was invoked. -/
structure AuthComputed where
  orCond : JsVal
  filterCond : JsVal
  filterInvoked : Bool

/-- `CrudRequestInterceptor.getAuth` (the `or`/`filter` part): `auth.or` is
the or-function's result when one is configured; the filter function runs
only when `isFunction(filter) && !auth.or`, and its falsy results default to
`{}`. -/
def getAuth (a : Option AuthOpt) (user : JsVal) : AuthComputed :=
  match a with
  | none => ⟨.undef, .undef, false⟩
  | some ao =>
    let orv := match ao.orFn with
      | some f => f user
      | none => .undef
    match ao.filterFn with
    | some ff =>
      if jsTruthy orv then ⟨orv, .undef, false⟩
      else ⟨orv, (let r := ff user; if jsTruthy r then r else .obj []), true⟩
    | none => ⟨orv, .undef, false⟩

/-- The search assembly of `CrudRequestInterceptor.intercept` when controller
options are present: `parser.search = auth.or ? {$or: [auth.or, {$and:
search}]} : {$and: [auth.filter, ...search]}` (in the second form the
`auth.filter` slot holds `undefined` when no filter function ran). -/
def interceptSearch (a : Option AuthOpt) (user : JsVal) (search : List JsVal) :
    JsVal :=
  let auth := getAuth a user
  if jsTruthy auth.orCond then
    .obj [("$or", .arr [auth.orCond, .obj [("$and", .arr search)]])]
  else
    .obj [("$and", .arr (auth.filterCond :: search))]

/- ------------------------------------------------------------------
`RequestQueryParser`: the `search` parameter (steps of `parseQuery`).
------------------------------------------------------------------ -/

/-- `RequestQueryParser.parseSearchQueryParam`: absent data parses to
`undefined`; otherwise the raw string must `JSON.parse` (the oracle
`jsonParse`, `none` meaning the JS parser threw) to a value accepted by
`isObject`, and any failure in the `try` block becomes
`RequestQueryException("Invalid search param. JSON expected")`. -/
def parseSearchQueryParam (jsonParse : String → Option JsVal)
    (d : Option String) : Except RQErr (Option JsVal) :=
  match d with
  | none => .ok none
  | some s =>
    match jsonParse s with
    | none => .error (.queryParse "Invalid search param. JSON expected")
    | some v =>
      if isObject v then .ok (some v)
      else .error (.queryParse "Invalid search param. JSON expected")

/-- The `search`/`filter`/`or` section of `RequestQueryParser.parseQuery`:
`this.search = this.parseSearchQueryParam(searchData)`, and only when the
result `isNil` are the `filter` and `or` parameters parsed (they keep their
initial `[]` otherwise).  The two condition parsers are abstract here; the
result triple is `(search, filter, or)`. -/
def parseQuerySearchSection (jsonParse : String → Option JsVal)
    (searchData : Option String)
    (filterParse orParse : List String → Except RQErr (List QueryFilterC))
    (filterRaw orRaw : List String) :
    Except RQErr (Option JsVal × List QueryFilterC × List QueryFilterC) :=
  match parseSearchQueryParam jsonParse searchData with
  | .error e => .error e
  | .ok (some s) => .ok (some s, [], [])
  | .ok none =>
    match filterParse filterRaw with
    | .error e => .error e
    | .ok fs =>
      match orParse orRaw with
      | .error e => .error e
      | .ok os => .ok (none, fs, os)

/- ------------------------------------------------------------------
Joins: `getRelationMetadata` / `setJoin`, and the select list `getSelect`.
------------------------------------------------------------------ -/

/-- Relation metadata as consumed from the ORM: per entity a list of
relations (property name and the inverse entity's metadata) plus column and
primary-column property paths. -/
inductive EMeta where
  | mk (relations : List (String × EMeta)) (columns : List String)
      (primaryColumns : List String)

/-- The relations of an entity's metadata. -/
def EMeta.relations : EMeta → List (String × EMeta)
  | .mk r _ _ => r

/-- The column property paths of an entity's metadata. -/
def EMeta.columns : EMeta → List String
  | .mk _ c _ => c

/-- The primary-column property paths of an entity's metadata. -/
def EMeta.primaryColumns : EMeta → List String
  | .mk _ _ p => p

/-- Per-relation join options declared on the route (`JoinOption`): alias,
required flag, `select` flag (`options.select !== false` enables selection),
persist columns and allow/exclude lists (empty list = absent). -/
structure JoinOptionC where
  aliasOpt : Option String
  required : Bool
  select : Option Bool
  persist : List String
  exclude : List String
  allow : List String

/-- A memoized allowed relation (`IAllowedRelation`). -/
structure ARel where
  aliasOpt : Option String
  nested : Bool
  name : String
  path : Option String
  columns : List String
  primaryColumns : List String
  allowedColumns : List String

/-- `TypeOrmCrudService.getAllowedColumns`: with neither an `exclude` nor an
`allow` list the columns pass through; otherwise keep the columns not
excluded and (when an allow list exists) allowed. -/
def getAllowedColumns (columns : List String) (exclude allow : List String) :
    List String :=
  if exclude.isEmpty && allow.isEmpty then columns
  else columns.filter (fun column =>
    (exclude.isEmpty || !(exclude.contains column)) &&
    (allow.isEmpty || allow.contains column))

/-- `TypeOrmCrudService.getEntityColumns`: the column and primary-column
property paths of an entity's metadata. -/
def getEntityColumns (m : EMeta) : List String × List String :=
  (m.columns, m.primaryColumns)

/-- `entityRelationsHash.get`. -/
def cacheGet (cache : List (String × ARel)) (k : String) : Option ARel :=
  (cache.find? (fun p => p.1 == k)).map (·.2)

/-- `entityRelationsHash.set` (a JS `Map`: overwrite an existing key, append
a fresh one). -/
def cacheSet (cache : List (String × ARel)) (k : String) (v : ARel) :
    List (String × ARel) :=
  if cache.any (fun p => p.1 == k) then
    cache.map (fun p => if p.1 == k then (k, v) else p)
  else cache ++ [(k, v)]

/-- The lookup half of `TypeOrmCrudService.getRelationMetadata`: resolve a
(possibly dotted) join field to an allowed relation, consulting the
memoization cache; `none` when the relation cannot be resolved.  The nested
case walks the segments through the relation graph (the source `reduce`),
takes the last segment as `name`, joins all but the last into `parentPath`,
and only recovers a `path` when the parent is already cached. -/
def getRelationMetadataLookup (ctx : SvcCtx) (rootRels : List (String × EMeta))
    (cache : List (String × ARel)) (field : String) (options : JoinOptionC) :
    Option ARel :=
  match cacheGet cache field with
    | some ar => some ar
    | none =>
      let fields := splitDot field
      let computed : Option (Bool × String × Option String × EMeta) :=
        if fields.length == 1 then
          match rootRels.find? (fun p => p.1 == field) with
          | some (_, im) =>
            some (false, field, some (ctx.rootAlias ++ "." ++ field), im)
          | none => none
        else
          let st := fields.foldl
            (fun (st : List (String × EMeta) × Option EMeta) propertyName =>
              let found := if st.1.isEmpty then none
                else st.1.find? (fun p => p.1 == propertyName)
              let md := found.map (·.2)
              ((md.map (·.relations)).getD [], md))
            (rootRels, none)
          match st.2 with
          | none => none
          | some md =>
            let name := (fields.getLast?).getD ""
            let parentPath := String.intercalate "." fields.dropLast
            let path : Option String :=
              if parentPath != "" then
                match cacheGet cache parentPath with
                | some par =>
                  some (match par.aliasOpt with
                    | some a => a ++ "." ++ name
                    | none => field)
                | none => none
              else none
            some (true, name, path, md)
      match computed with
      | none => none
      | some (nested, name, path, md) =>
        let (columns, primaryColumns) := getEntityColumns md
        some { aliasOpt := options.aliasOpt, nested := nested, name := name,
               path := path, columns := columns,
               primaryColumns := primaryColumns, allowedColumns := [] }

/-- `TypeOrmCrudService.getRelationMetadata` proper: the looked-up relation
gets its `allowedColumns` computed against the current options and is saved
back into the cache (also under its alias); an unresolvable relation leaves
the cache untouched and yields `none`. -/
def getRelationMetadata (ctx : SvcCtx) (rootRels : List (String × EMeta))
    (cache : List (String × ARel)) (field : String) (options : JoinOptionC) :
    Option ARel × List (String × ARel) :=
  match getRelationMetadataLookup ctx rootRels cache field options with
  | none => (none, cache)
  | some ar =>
    let allowedColumns := getAllowedColumns ar.columns options.exclude options.allow
    let toSave : ARel := { ar with allowedColumns := allowedColumns }
    let cache2 := cacheSet cache field toSave
    let cache3 := match options.aliasOpt with
      | some a => cacheSet cache2 a toSave
      | none => cache2
    (some toSave, cache3)

/-- First-insertion-order deduplication (`new Set`), accumulator form. -/
def jsSetDedupGo (seen : List String) : List String → List String
  | [] => []
  | x :: xs =>
    if seen.contains x then jsSetDedupGo seen xs
    else x :: jsSetDedupGo (seen ++ [x]) xs

/-- `[...new Set(l)]`: deduplicate keeping first occurrences. -/
def jsSetDedup (l : List String) : List String := jsSetDedupGo [] l

/-- A join recorded on the builder (`innerJoin`/`leftJoin` call). -/
structure JoinRec where
  kind : String
  path : Option String
  aliasName : String
  onSql : Option (String × List (String × JsVal))

/-- The builder state touched by `setJoin`: recorded joins and the selected
columns added by `addSelect`. -/
structure JBuilder where
  joins : List JoinRec
  selects : List String

/-- `TypeOrmCrudService.convertArrayToQuery`: join the fragments with
` AND ` and merge the parameter maps (`Object.assign`, modelled by append —
the generated parameter names are distinct). -/
def convertArrayToQuery (data : List (String × List (String × JsVal))) :
    String × List (String × JsVal) :=
  (String.intercalate " AND " (data.map (·.1)),
   data.foldl (fun acc p => acc ++ p.2) [])

/-- The `cond.on.map((condition, i) => mapOperatorsToQuery(condition,
`andCondition${i}`, {}))` loop of `setJoin`. -/
def setJoinOnConds (ctx : SvcCtx) : List QueryFilterC → Nat →
    Except CrudErr (List (String × List (String × JsVal)))
  | [], _ => .ok []
  | c :: rest, i =>
    match mapOperatorsToQuery ctx [] c ("andCondition" ++ toString i) with
    | .error e => .error e
    | .ok r =>
      match setJoinOnConds ctx rest (i + 1) with
      | .error e => .error e
      | .ok rs => .ok (r :: rs)

/-- The `joinOptions[cond.field]` lookup of `setJoin`. -/
def lookupJoinOpt (joinOptions : List (String × JoinOptionC)) (field : String) :
    Option JoinOptionC :=
  (joinOptions.find? (fun p => p.1 == field)).map (·.2)

/-- `TypeOrmCrudService.setJoin`: a join whose field has no entry in the
route's join options is skipped with a console warning; one whose relation
metadata cannot be resolved is skipped silently; otherwise the join is
recorded (INNER when `required`) and, unless `select === false`, the
requested columns (intersected with the allow-list) or the full allow-list
are selected together with the relation's primary and persist columns. -/
def setJoin (ctx : SvcCtx) (rootRels : List (String × EMeta))
    (cond : QueryJoinC) (joinOptions : List (String × JoinOptionC))
    (b : JBuilder) (cache : List (String × ARel)) :
    Except CrudErr (JBuilder × List (String × ARel)) :=
  match lookupJoinOpt joinOptions cond.field with
  | none => .ok (b, cache)
  | some options =>
    let (ar, cache2) := getRelationMetadata ctx rootRels cache cond.field options
    match ar with
    | none => .ok (b, cache2)
    | some allowedRelation =>
      let relationType := if options.required then "innerJoin" else "leftJoin"
      let aliasName := options.aliasOpt.getD allowedRelation.name
      let onSql : Except CrudErr (Option (String × List (String × JsVal))) :=
        match cond.onCond with
        | none => .ok none
        | some conds =>
          match setJoinOnConds ctx conds 0 with
          | .error e => .error e
          | .ok rs => .ok (some (convertArrayToQuery rs))
      match onSql with
      | .error e => .error e
      | .ok onPart =>
        let b2 : JBuilder := { b with joins := b.joins ++
          [{ kind := relationType, path := allowedRelation.path,
             aliasName := aliasName, onSql := onPart }] }
        if !(options.select == some false) then
          let columns := match cond.select with
            | some (c :: cs) => (c :: cs).filter
                (fun column => allowedRelation.allowedColumns.contains column)
            | _ => allowedRelation.allowedColumns
          let select := (jsSetDedup (allowedRelation.primaryColumns ++
            options.persist ++ columns)).map (fun col => aliasName ++ "." ++ col)
          .ok ({ b2 with selects := b2.selects ++ jsSetDedup select }, cache2)
        else
          .ok (b2, cache2)

/-- The `parsed.join` loop of `createBuilder` (the non-eager part): each
requested join is handed to `setJoin` in order. -/
def setJoinLoop (ctx : SvcCtx) (rootRels : List (String × EMeta))
    (joinOptions : List (String × JoinOptionC)) :
    List QueryJoinC → JBuilder → List (String × ARel) →
    Except CrudErr (JBuilder × List (String × ARel))
  | [], b, cache => .ok (b, cache)
  | c :: rest, b, cache =>
    match setJoin ctx rootRels c joinOptions b cache with
    | .error e => .error e
    | .ok (b2, cache2) => setJoinLoop ctx rootRels joinOptions rest b2 cache2

/-- `TypeOrmCrudService.getSelect`: the allowed root columns are filtered by
the client's requested fields (or taken whole), then the persist columns,
the filtered columns and the primary-key columns are combined, deduplicated
and alias-prefixed. -/
def getSelect (ctx : SvcCtx) (entityColumns primaryCols : List String)
    (fields : List String) (allow exclude persist : List String) :
    List String :=
  let allowed := getAllowedColumns entityColumns exclude allow
  let columns := if !fields.isEmpty then
      fields.filter (fun field => allowed.contains field)
    else allowed
  let select := (jsSetDedup (persist ++ columns ++ primaryCols)).map
    (fun col => ctx.rootAlias ++ "." ++ col)
  jsSetDedup select

/- ------------------------------------------------------------------
Pagination (`doGetMany`); the `CrudService` base class lives in
packages/crud, which is not under src/, so its helpers are modelled from
the spec (§4.5).
------------------------------------------------------------------ -/

/-- The paged envelope `{data, count, total, page, pageCount}`. -/
structure PageEnvelope (α : Type) where
  data : List α
  count : Nat
  total : Nat
  page : Nat
  pageCount : Nat

/-- What `doGetMany` returns: a paged envelope or the bare row list. -/
inductive GetManyResult (α : Type) where
  | paged (e : PageEnvelope α)
  | plain (xs : List α)

/-- Modelled from the spec: `CrudService.decidePagination` (packages/crud,
not under src/) — "pagination is active when the merged query options
indicate always paginate or the client supplied `page`/`limit`" (§4.5). -/
def decidePagination (alwaysPaginate : Bool) (page limit : Option Nat) : Bool :=
  alwaysPaginate || page.isSome || limit.isSome

/-- Modelled from the spec: `CrudService.createPageInfo` (packages/crud, not
under src/) — "compute `pageCount = ceil(total / limit)`; echo back the
effective `page`, `count` (rows returned), `total`" (§4.5); the effective
page is recovered from the offset as `offset / limit + 1`. -/
def createPageInfo {α : Type} (data : List α) (total limit offset : Nat) :
    PageEnvelope α :=
  { data := data, count := data.length, total := total,
    page := offset / limit + 1, pageCount := (total + limit - 1) / limit }

/-- Modelled from the spec: the storage collaborator's combined fetch+count
(`SelectQueryBuilder.getManyAndCount` / `getMany`, §6) — the rows matching
the filter are windowed by the builder's `skip` and `take`. -/
def getManyAndCountRows {α : Type} (rows : List α) (tk sk : Option Nat) :
    List α :=
  let afterSkip := rows.drop (sk.getD 0)
  match tk with
  | some t => afterSkip.take t
  | none => afterSkip

/-- JS `a || b` over an optional number (`limit || total`, `offset || 0`):
`undefined` and `0` both fall back. -/
def jsOrNat (o : Option Nat) (d : Nat) : Nat :=
  match o with
  | some n => if n == 0 then d else n
  | none => d

/-- Modelled from the spec: `getTake` — the client's `limit` becomes the
builder's `take` (§4.5/§8 scenario). -/
def getTakeM (limit : Option Nat) : Option Nat := limit

/-- Modelled from the spec: `getSkip` — with a `page` and a `take` the
builder's `skip` is `(page - 1) * take` (§8 scenario: `limit=10&page=2`
returns rows 11-20). -/
def getSkipM (page tk : Option Nat) : Option Nat :=
  match page, tk with
  | some p, some t => some ((p - 1) * t)
  | _, _ => none

/-- `TypeOrmCrudService.doGetMany`: when pagination is active, fetch rows
and total together and envelope them via `createPageInfo(data, total,
limit || total, offset || 0)` with `limit`/`offset` read from the builder's
`take`/`skip`; otherwise return the bare (still windowed) list. -/
def doGetMany {α : Type} (rows : List α) (tk sk : Option Nat)
    (alwaysPaginate : Bool) (page limit : Option Nat) : GetManyResult α :=
  if decidePagination alwaysPaginate page limit then
    let data := getManyAndCountRows rows tk sk
    let total := rows.length
    let lim := jsOrNat tk total
    let off := jsOrNat sk 0
    .paged (createPageInfo data total lim off)
  else
    .plain (getManyAndCountRows rows tk sk)

/- ------------------------------------------------------------------
Sample instances used by witnesses and counterexamples.
------------------------------------------------------------------ -/

/-- Whether an `Except` result is a success. -/
def isOkE {ε α : Type} : Except ε α → Bool
  | .ok _ => true
  | .error _ => false

/-- The operators handled by named switch cases of `mapOperatorsToQuery`
(everything else falls to the custom-operator default). -/
def builtinOps : List String :=
  ["$eq", "$ne", "$gt", "$lt", "$gte", "$lte", "$starts", "$ends", "$cont",
   "$excl", "$in", "$notin", "$isnull", "$notnull", "$between", "$eqL",
   "$neL", "$startsL", "$endsL", "$contL", "$exclL", "$inL", "$notinL",
   "$contArr", "$intersectsArr"]

/-- A concrete service context: a postgres connection, root alias `T`, the
identity columns hash and a decimal `hrtime` supply. -/
def ctx0 : SvcCtx :=
  { dbName := "postgres", rootAlias := "T", columnsHash := fun f => some f,
    columnType := fun _ => "integer", hr := fun n => toString n }

/- ==================================================================
Theorems for the claims.
================================================================== -/

/-- A one-entry object whose value is `null` holds no full combinator
array. -/
theorem lookupArrFull_single_null (k f : String) :
    lookupArrFull k [(f, JsVal.null)] = none := by
  unfold lookupArrFull
  simp only [List.find?]
  cases f == k <;> rfl

/-- C3 — the claim says compiling `{$or: [X]}` attaches conditions to the
same scopes as compiling `X` directly in every position, including when the
`$or` has sibling fields.  The code violates this: for
`search = {b: 2, $or: [{a: 1}]}` under the inherited `$and` combinator, the
collapsed sole element `{a: 1}` is compiled against the OUTER builder
(`builder` instead of the bracket builder `qb`), so its condition lands
outside — and before — the bracket group holding the sibling `b = :p`,
instead of inside the group as direct compilation in that scope would. -/
theorem C3_single_or_sibling_escapes_brackets :
    setSearchCondition ctx0 []
      (.obj [("b", .num 2), ("$or", .arr [.obj [("a", .num 1)]])]) .and 0 =
    .ok ([(.and, .leaf "\"T\".\"a\" = :andWhere_1" [("andWhere_1", .num 1)]),
          (.and, .brackets
            [(.and, .leaf "\"T\".\"b\" = :andWhere_0" [("andWhere_0", .num 2)])])],
      2) := by
  simp [setSearchCondition, setSearchConditionMixedFold, setSearchConditionChildren,
    setSearchConditionLeafFold, setSearchFieldObjectCondition, builderSetWhere,
    mapOperatorsToQuery, lookupArrFull, builderAddBrackets, getFieldWithAlias,
    normalizeOp, isObject, isNullVal, checkFilterIsArray, List.find?, ctx0]
  decide

/-- C5 — a leaf condition with value `null` and no explicit operator
compiles to `field IS NULL` with no bound parameter (never `field = NULL`):
both at the `builderSetWhere` level (where the `$eq` default is rewritten to
`$isnull`) and for a whole single-field search condition. -/
theorem C5_null_leaf_compiles_to_is_null (ctx : SvcCtx)
    (custom : List (String × CustomOp)) (field : String) (cond : CKey) (n : Nat) :
    builderSetWhere ctx custom cond field .null "$eq" n =
      .ok ((cond, .leaf (getFieldWithAlias ctx field false ++ " IS NULL") []), n + 1)
    ∧ setSearchCondition ctx custom (.obj [(field, .null)]) cond n =
      .ok ([(cond, .leaf (getFieldWithAlias ctx field false ++ " IS NULL") [])],
        n + 1) := by
  constructor
  · simp [builderSetWhere, mapOperatorsToQuery, normalizeOp, isNullVal]
  · simp only [setSearchCondition]
    rw [lookupArrFull_single_null "$not" field, lookupArrFull_single_null "$and" field]
    have hor := lookupArrFull_single_null "$or" field
    repeat' split
    all_goals simp_all [isObject, builderSetWhere, mapOperatorsToQuery,
      normalizeOp, isNullVal]

/-- C4 — with no `search` parameter the client search is derived from the
`filter`/`or` arrays exactly by the tie-break of the claim: one filter and
one or collapse into a single `$or` pair; both non-empty otherwise into
`{$or: [{$and: filters}, {$and: ors}]}`; only filters map one-by-one (to be
`$and`-combined by the interceptor); a sole `or` entry passes through
unwrapped; several `or` entries wrap in `$or`. -/
theorem C4_client_search_tiebreak (f o : QueryFilterC)
    (fs os : List QueryFilterC) :
    getSearchClientPart none [f] [o] =
      [.obj [("$or", .arr [convertFilterToSearch f, convertFilterToSearch o])]]
    ∧ (fs ≠ [] → os ≠ [] → ¬(fs.length = 1 ∧ os.length = 1) →
        getSearchClientPart none fs os =
          [.obj [("$or", .arr
            [.obj [("$and", .arr (fs.map convertFilterToSearch))],
             .obj [("$and", .arr (os.map convertFilterToSearch))]])]])
    ∧ getSearchClientPart none fs [] = fs.map convertFilterToSearch
    ∧ getSearchClientPart none [] [o] = [convertFilterToSearch o]
    ∧ (1 < os.length →
        getSearchClientPart none [] os =
          [.obj [("$or", .arr (os.map convertFilterToSearch))]]) := by
  refine ⟨rfl, ?_, ?_, rfl, ?_⟩
  · intro hf ho hne
    match fs, os with
    | [], _ => exact absurd rfl hf
    | _ :: _, [] => exact absurd rfl ho
    | [f1], [o1] => exact absurd ⟨rfl, rfl⟩ hne
    | [f1], o1 :: o2 :: ot => rfl
    | f1 :: f2 :: ft, o1 :: ot => rfl
  · rcases fs with _ | ⟨f1, _ | ⟨f2, ft⟩⟩ <;> rfl
  · intro hlen
    match os with
    | [] => simp at hlen
    | [o1] => simp at hlen
    | o1 :: o2 :: ot => rfl

/-- C4 witness — the spec's own example: `filter=[status||$eq||active]` and
`or=[status||$eq||pending]` combine into
`{$or: [{status: {$eq: "active"}}, {status: {$eq: "pending"}}]}`; and with
two filters against one or-entry the `$and`-pair shape is produced. -/
theorem C4_client_search_tiebreak_witness :
    getSearchClientPart none [⟨"status", "$eq", .str "active"⟩]
        [⟨"status", "$eq", .str "pending"⟩] =
      [.obj [("$or", .arr [.obj [("status", .obj [("$eq", .str "active")])],
        .obj [("status", .obj [("$eq", .str "pending")])]])]]
    ∧ getSearchClientPart none
        [⟨"a", "$eq", .num 1⟩, ⟨"b", "$eq", .num 2⟩] [⟨"c", "$eq", .num 3⟩] =
      [.obj [("$or", .arr
        [.obj [("$and", .arr [.obj [("a", .obj [("$eq", .num 1)])],
          .obj [("b", .obj [("$eq", .num 2)])]])],
         .obj [("$and", .arr [.obj [("c", .obj [("$eq", .num 3)])]])]])]] := by
  constructor
  · have h := (C4_client_search_tiebreak ⟨"status", "$eq", .str "active"⟩
      ⟨"status", "$eq", .str "pending"⟩ [] []).1
    simpa [convertFilterToSearch] using h
  · have h := (C4_client_search_tiebreak ⟨"a", "$eq", .num 1⟩ ⟨"c", "$eq", .num 3⟩
      [⟨"a", "$eq", .num 1⟩, ⟨"b", "$eq", .num 2⟩] [⟨"c", "$eq", .num 3⟩]).2.1
      (by simp) (by simp) (by simp)
    simpa [convertFilterToSearch] using h

/-- `mapSort` fails exactly when some sort field's alias-resolved form
matches a SQL-injection signature (the loop throws at the first match). -/
theorem mapSortGo_not_ok (ctx : SvcCtx) :
    ∀ (sorts : List QuerySortC) (acc : List (String × String)),
    isOkE (mapSortGo ctx sorts acc) = false ↔
      ∃ s ∈ sorts, sqlInjectionMatch (getFieldWithAlias ctx s.field true) = true := by
  intro sorts
  induction sorts with
  | nil => intro acc; simp [mapSortGo, isOkE]
  | cons s rest ih =>
    intro acc
    simp only [mapSortGo, checkSqlInjection]
    cases hm : sqlInjectionMatch (getFieldWithAlias ctx s.field true) with
    | true => simp [isOkE, hm]
    | false =>
      simp only [hm, Bool.false_eq_true, ite_false]
      rw [ih]
      constructor
      · intro ⟨s2, hs2, hmatch⟩; exact ⟨s2, by simp [hs2], hmatch⟩
      · intro ⟨s2, hs2, hmatch⟩
        rcases List.mem_cons.mp hs2 with rfl | hmem
        · rw [hm] at hmatch; cases hmatch
        · exact ⟨s2, hmem, hmatch⟩

/-- C2 counterexample — the claim says every resolved field name (filter
leaves and sort fields alike) is tested against the SQL-injection patterns
before interpolation and a match fails the request.  The dotted filter field
`p.name'--` resolves verbatim and matches pattern 1 (quote and `--`), yet
`mapOperatorsToQuery` interpolates it into the fragment and succeeds: filter
leaves are never run through `checkSqlInjection`. -/
theorem C2_filter_leaf_injection_unchecked_cex :
    sqlInjectionMatch (getFieldWithAlias ctx0 "p.name\x27--" false) = true
    ∧ mapOperatorsToQuery ctx0 [] ⟨"p.name\x27--", "$eq", .num 1⟩ "q" =
        .ok ("p.name\x27-- = :q", [("q", .num 1)]) := ⟨rfl, rfl⟩

/-- C2 amended — only sort fields are tested against the SQL-injection
signature patterns before interpolation: `mapSort` fails with a bad-request
error exactly when some alias-resolved sort field matches a pattern (never
sanitizing), while a filter leaf's resolved field name is interpolated into
the SQL fragment without the injection test (its value stays
parameter-bound). -/
theorem C2_injection_check_covers_only_sort (ctx : SvcCtx)
    (custom : List (String × CustomOp)) (sorts : List QuerySortC)
    (f : String) (v : JsVal) (param : String) :
    (isOkE (mapSort ctx sorts) = false ↔
      ∃ s ∈ sorts, sqlInjectionMatch (getFieldWithAlias ctx s.field true) = true)
    ∧ mapOperatorsToQuery ctx custom ⟨f, "$eq", v⟩ param =
        .ok (getFieldWithAlias ctx f false ++ " = :" ++ param, [(param, v)]) :=
  ⟨mapSortGo_not_ok ctx sorts [], by simp [mapOperatorsToQuery, normalizeOp]⟩

/-- C6 — array-class operators require a non-empty array value: compiling
`$in`/`$notin`/`$inL`/`$notinL`/`$contArr`/`$intersectsArr` succeeds exactly
when the value is a non-empty array, `$between` succeeds exactly when the
value is an array of length exactly 2, and a custom operator flagged
`isArray` succeeds exactly when the value is a non-empty array; otherwise a
bad-request error is raised. -/
theorem C6_array_operator_arity (ctx : SvcCtx) (custom : List (String × CustomOp))
    (f : String) (v : JsVal) (param : String) (op : String) (cop : CustomOp) :
    (op ∈ ["$in", "$notin", "$inL", "$notinL", "$contArr", "$intersectsArr"] →
      (isOkE (mapOperatorsToQuery ctx custom ⟨f, op, v⟩ param) = true ↔
        isArrayFull v = true))
    ∧ (isOkE (mapOperatorsToQuery ctx custom ⟨f, "$between", v⟩ param) = true ↔
        ∃ a b, v = .arr [a, b])
    ∧ (normalizeOp op = op → op ∉ builtinOps → lookupCustom custom op = some cop →
        cop.isArray = true →
        (isOkE (mapOperatorsToQuery ctx custom ⟨f, op, v⟩ param) = true ↔
          isArrayFull v = true)) := by
  refine ⟨?_, ?_, ?_⟩
  · intro hmem
    simp only [List.mem_cons, List.mem_singleton, List.not_mem_nil, or_false] at hmem
    rcases hmem with rfl | rfl | rfl | rfl | rfl | rfl <;>
      · simp only [mapOperatorsToQuery, normalizeOp, checkFilterIsArray]
        rcases v with _ | _ | b | m | s | ⟨_ | ⟨x, xs⟩⟩ | o <;>
          simp [isOkE, isArrayFull]
  · simp only [mapOperatorsToQuery, normalizeOp, checkFilterIsArray]
    rcases v with _ | _ | b | m | s | ⟨_ | ⟨x, _ | ⟨y, ys⟩⟩⟩ | o <;>
      simp [isOkE, isArrayFull, jsLength]
    cases ys <;> simp [isOkE]
  · intro hnorm hnotin hcust harr
    simp only [mapOperatorsToQuery, hnorm]
    split
    all_goals try (simp [builtinOps] at hnotin)
    rw [hcust]
    cases hv : isArrayFull v <;> simp [harr, hv, isOkE]

/-- C6 witness — `$in` with `[1]` compiles, `$in` with `[]` and `$between`
with `[1]` fail, `$between` with `[1, 3]` compiles. -/
theorem C6_array_operator_arity_witness :
    isOkE (mapOperatorsToQuery ctx0 [] ⟨"tags", "$in", .arr [.num 1]⟩ "p") = true
    ∧ isOkE (mapOperatorsToQuery ctx0 [] ⟨"tags", "$in", .arr []⟩ "p") = false
    ∧ isOkE (mapOperatorsToQuery ctx0 []
        ⟨"age", "$between", .arr [.num 1, .num 3]⟩ "p") = true
    ∧ isOkE (mapOperatorsToQuery ctx0 [] ⟨"age", "$between", .arr [.num 1]⟩ "p") =
        false := by
  have dummy : CustomOp := ⟨false, fun _ _ => "", none⟩
  refine ⟨?_, ?_, ?_, ?_⟩
  · exact ((C6_array_operator_arity ctx0 [] "tags" (.arr [.num 1]) "p" "$in"
      dummy).1 (by simp)).mpr rfl
  · have h := ((C6_array_operator_arity ctx0 [] "tags" (.arr []) "p" "$in"
      dummy).1 (by simp))
    simpa [isArrayFull] using h
  · exact ((C6_array_operator_arity ctx0 [] "age" (.arr [.num 1, .num 3]) "p" "$in"
      dummy).2.1).mpr ⟨.num 1, .num 3, rfl⟩
  · have h := (C6_array_operator_arity ctx0 [] "age" (.arr [.num 1]) "p" "$in"
      dummy).2.1
    simp at h
    simpa using h

/-- C7 — a present `search` parameter must be JSON for an object: a JSON
parse failure or a non-object result fails with
`QueryParseError("Invalid search param. JSON expected")`, and a successfully
parsed search condition skips `filter`/`or` parsing entirely — the parsed
`filter` and `or` arrays stay `[]` for every conceivable condition parser. -/
theorem C7_search_param_supersedes (jsonParse : String → Option JsVal)
    (filterParse orParse : List String → Except RQErr (List QueryFilterC))
    (filterRaw orRaw : List String) (s : String) :
    (jsonParse s = none →
      parseQuerySearchSection jsonParse (some s) filterParse orParse filterRaw orRaw =
        .error (.queryParse "Invalid search param. JSON expected"))
    ∧ (∀ v, jsonParse s = some v → isObject v = false →
      parseQuerySearchSection jsonParse (some s) filterParse orParse filterRaw orRaw =
        .error (.queryParse "Invalid search param. JSON expected"))
    ∧ (∀ v, jsonParse s = some v → isObject v = true →
      parseQuerySearchSection jsonParse (some s) filterParse orParse filterRaw orRaw =
        .ok (some v, [], [])) := by
  refine ⟨?_, ?_, ?_⟩
  · intro h
    simp [parseQuerySearchSection, parseSearchQueryParam, h]
  · intro v h hobj
    simp [parseQuerySearchSection, parseSearchQueryParam, h, hobj]
  · intro v h hobj
    simp [parseQuerySearchSection, parseSearchQueryParam, h, hobj]

/-- C7 witness — with a parse oracle accepting only `good` (an object) and
`list` (an array), the unparsable and array inputs fail with the documented
message and the object input parses with `filter`/`or` left `[]`, against
condition parsers that would otherwise produce non-empty lists. -/
theorem C7_search_param_supersedes_witness :
    parseQuerySearchSection
        (fun s => if s == "good" then some (.obj [("a", .num 1)])
          else if s == "list" then some (.arr [.num 1]) else none)
        (some "nope")
        (fun _ => .ok [⟨"f", "$eq", .num 0⟩]) (fun _ => .ok [⟨"g", "$eq", .num 0⟩])
        ["raw"] ["raw"] =
      .error (.queryParse "Invalid search param. JSON expected")
    ∧ parseQuerySearchSection
        (fun s => if s == "good" then some (.obj [("a", .num 1)])
          else if s == "list" then some (.arr [.num 1]) else none)
        (some "list")
        (fun _ => .ok [⟨"f", "$eq", .num 0⟩]) (fun _ => .ok [⟨"g", "$eq", .num 0⟩])
        ["raw"] ["raw"] =
      .error (.queryParse "Invalid search param. JSON expected")
    ∧ parseQuerySearchSection
        (fun s => if s == "good" then some (.obj [("a", .num 1)])
          else if s == "list" then some (.arr [.num 1]) else none)
        (some "good")
        (fun _ => .ok [⟨"f", "$eq", .num 0⟩]) (fun _ => .ok [⟨"g", "$eq", .num 0⟩])
        ["raw"] ["raw"] =
      .ok (some (.obj [("a", .num 1)]), [], []) := by
  refine ⟨?_, ?_, ?_⟩
  · exact (C7_search_param_supersedes _ _ _ _ _ _).1 rfl
  · exact (C7_search_param_supersedes _ _ _ _ _ _).2.1 (.arr [.num 1]) rfl rfl
  · exact (C7_search_param_supersedes _ _ _ _ _ _).2.2 (.obj [("a", .num 1)]) rfl rfl

/-- C8 — with pagination active (the client supplied `page` and `limit`),
`doGetMany` returns the paged envelope whose `count` is the number of rows
returned by the windowed fetch, whose `total` counts all matching rows,
whose `page` echoes the requested page, and whose `pageCount` is
`ceil(total / limit)` for the effective limit. -/
theorem C8_pagination_envelope (rows : List Nat) (l p : Nat) (ap : Bool)
    (hl : 1 ≤ l) (hp : 1 ≤ p) :
    decidePagination ap (some p) (some l) = true
    ∧ doGetMany rows (getTakeM (some l)) (getSkipM (some p) (some l)) ap
        (some p) (some l) =
      .paged { data := (rows.drop ((p - 1) * l)).take l,
               count := ((rows.drop ((p - 1) * l)).take l).length,
               total := rows.length, page := p,
               pageCount := (rows.length + l - 1) / l } := by
  have hdp : decidePagination ap (some p) (some l) = true := by
    simp [decidePagination]
  refine ⟨hdp, ?_⟩
  have hlim : jsOrNat (some l) rows.length = l := by
    simp only [jsOrNat]
    split
    · rename_i h; simp at h; omega
    · rfl
  have hoff : jsOrNat (some ((p - 1) * l)) 0 = (p - 1) * l := by
    simp only [jsOrNat]
    split
    · rename_i h
      simp only [beq_iff_eq] at h
      exact h.symm
    · rfl
  simp only [doGetMany, hdp, if_true, getTakeM, getSkipM, getManyAndCountRows,
    Option.getD_some, createPageInfo, hlim, hoff]
  have hpage : (p - 1) * l / l + 1 = p := by
    rw [Nat.mul_div_cancel _ (by omega : 0 < l)]
    omega
  rw [hpage]

/-- C8 witness — the spec scenario: `limit=10&page=2` over 25 matching rows
reports `count=10, total=25, page=2, pageCount=3`. -/
theorem C8_pagination_envelope_witness :
    doGetMany (List.range 25) (getTakeM (some 10)) (getSkipM (some 2) (some 10))
        false (some 2) (some 10) =
      .paged { data := ((List.range 25).drop 10).take 10, count := 10,
               total := 25, page := 2, pageCount := 3 } := by
  have h := (C8_pagination_envelope (List.range 25) 10 2 false (by omega)
    (by omega)).2
  simpa using h

/-- C9 — a requested join whose field is not declared in the route's join
options, or whose relation metadata does not resolve, is skipped: `setJoin`
returns successfully (no exception) with the builder and the relation cache
untouched, and the join loop continues with the remaining joins exactly as
if the offending join were absent. -/
theorem C9_undeclared_join_skipped (ctx : SvcCtx)
    (rootRels : List (String × EMeta)) (cond : QueryJoinC)
    (joinOptions : List (String × JoinOptionC)) (b : JBuilder)
    (cache : List (String × ARel)) (rest : List QueryJoinC) :
    (lookupJoinOpt joinOptions cond.field = none →
      setJoin ctx rootRels cond joinOptions b cache = .ok (b, cache)
      ∧ setJoinLoop ctx rootRels joinOptions (cond :: rest) b cache =
          setJoinLoop ctx rootRels joinOptions rest b cache)
    ∧ (∀ opts, lookupJoinOpt joinOptions cond.field = some opts →
        getRelationMetadataLookup ctx rootRels cache cond.field opts = none →
        setJoin ctx rootRels cond joinOptions b cache = .ok (b, cache)
        ∧ setJoinLoop ctx rootRels joinOptions (cond :: rest) b cache =
            setJoinLoop ctx rootRels joinOptions rest b cache) := by
  constructor
  · intro h
    refine ⟨by simp [setJoin, h], ?_⟩
    simp [setJoinLoop, setJoin, h]
  · intro opts h1 h2
    refine ⟨by simp [setJoin, h1, getRelationMetadata, h2], ?_⟩
    simp [setJoinLoop, setJoin, h1, getRelationMetadata, h2]

/-- C9 witness — a join for `company` which the route never declared is
skipped with the builder untouched; so is a declared join whose relation is
absent from the entity metadata. -/
theorem C9_undeclared_join_skipped_witness :
    setJoin ctx0 [] ⟨"company", none, none⟩ [] ⟨[], []⟩ [] = .ok (⟨[], []⟩, [])
    ∧ setJoin ctx0 [] ⟨"company", none, none⟩
        [("company", ⟨none, false, none, [], [], []⟩)] ⟨[], []⟩ [] =
      .ok (⟨[], []⟩, []) := by
  constructor
  · exact ((C9_undeclared_join_skipped ctx0 [] ⟨"company", none, none⟩ [] ⟨[], []⟩
      [] []).1 rfl).1
  · exact ((C9_undeclared_join_skipped ctx0 [] ⟨"company", none, none⟩
      [("company", ⟨none, false, none, [], [], []⟩)] ⟨[], []⟩ [] []).2
      ⟨none, false, none, [], [], []⟩ rfl rfl).1

/-- Membership through the accumulator of `jsSetDedupGo`. -/
theorem jsSetDedupGo_mem (a : String) :
    ∀ (l seen : List String), a ∈ jsSetDedupGo seen l ↔ a ∈ l ∧ a ∉ seen := by
  intro l
  induction l with
  | nil => intro seen; simp [jsSetDedupGo]
  | cons x xs ih =>
    intro seen
    simp only [jsSetDedupGo]
    split
    · rename_i hcon
      have hx : x ∈ seen := by simpa using hcon
      rw [ih]
      simp only [List.mem_cons]
      constructor
      · intro ⟨h1, h2⟩; exact ⟨Or.inr h1, h2⟩
      · intro ⟨h1, h2⟩
        rcases h1 with rfl | h3
        · exact absurd hx h2
        · exact ⟨h3, h2⟩
    · rename_i hcon
      have hx : x ∉ seen := by simpa using hcon
      simp only [List.mem_cons, ih, List.mem_append, List.mem_singleton]
      by_cases hax : a = x
      · subst hax; tauto
      · tauto

/-- `[...new Set(l)]` keeps exactly the members of `l`. -/
theorem jsSetDedup_mem (a : String) (l : List String) :
    a ∈ jsSetDedup l ↔ a ∈ l := by
  simp [jsSetDedup, jsSetDedupGo_mem]

/-- `String.append` is left-cancellative. -/
theorem string_append_left_cancel {a x y : String} (h : a ++ x = a ++ y) :
    x = y := by
  have h2 := congrArg String.data h
  simp only [String.data_append] at h2
  exact String.ext (List.append_cancel_left h2)

/-- C10 — the root select list always contains every primary-key column and
every server-declared persist column, whatever fields the client requested
and whatever the allow/exclude lists say; and a client-requested field
outside the allowed columns is silently dropped (absent from the select
list unless it is also a persist or primary-key column) rather than raising
an error. -/
theorem C10_select_always_keeps_primary_and_persist (ctx : SvcCtx)
    (entityColumns primaryCols fields allow exclude persist : List String) :
    (∀ p ∈ primaryCols, (ctx.rootAlias ++ "." ++ p) ∈
      getSelect ctx entityColumns primaryCols fields allow exclude persist)
    ∧ (∀ p ∈ persist, (ctx.rootAlias ++ "." ++ p) ∈
      getSelect ctx entityColumns primaryCols fields allow exclude persist)
    ∧ (∀ f2, f2 ∈ fields → f2 ∉ getAllowedColumns entityColumns exclude allow →
        f2 ∉ persist → f2 ∉ primaryCols →
        (ctx.rootAlias ++ "." ++ f2) ∉
          getSelect ctx entityColumns primaryCols fields allow exclude persist) := by
  refine ⟨?_, ?_, ?_⟩
  · intro p hp
    simp only [getSelect, jsSetDedup_mem, List.mem_map]
    exact ⟨p, by simp [jsSetDedup_mem, hp], rfl⟩
  · intro p hp
    simp only [getSelect, jsSetDedup_mem, List.mem_map]
    exact ⟨p, by simp [jsSetDedup_mem, hp], rfl⟩
  · intro f2 hf2 hallow hpers hprim hmem
    simp only [getSelect, jsSetDedup_mem, List.mem_map] at hmem
    obtain ⟨col, hcol, heq⟩ := hmem
    have hcol2 : col = f2 := string_append_left_cancel heq
    subst hcol2
    simp only [List.mem_append] at hcol
    rcases hcol with (hc | hc) | hc
    · exact hpers hc
    · by_cases hfe : fields.isEmpty
      · rw [if_neg (by simp [hfe])] at hc
        exact hallow hc
      · rw [if_pos (by simp [hfe])] at hc
        rcases List.mem_filter.mp hc with ⟨-, hcontains⟩
        exact hallow (by simpa using hcontains)
    · exact hprim hc

/-- C10 witness — with columns `id,name,secret`, primary key `id`, persist
`name`, `secret` excluded and the client requesting only `secret`: the
select list still carries `T.id` and `T.name`, and drops `T.secret`. -/
theorem C10_select_always_keeps_primary_and_persist_witness :
    (ctx0.rootAlias ++ "." ++ "id") ∈
      getSelect ctx0 ["id", "name", "secret"] ["id"] ["secret"] [] ["secret"] ["name"]
    ∧ (ctx0.rootAlias ++ "." ++ "name") ∈
      getSelect ctx0 ["id", "name", "secret"] ["id"] ["secret"] [] ["secret"] ["name"]
    ∧ (ctx0.rootAlias ++ "." ++ "secret") ∉
      getSelect ctx0 ["id", "name", "secret"] ["id"] ["secret"] [] ["secret"] ["name"] := by
  refine ⟨?_, ?_, ?_⟩
  · exact (C10_select_always_keeps_primary_and_persist ctx0 ["id", "name", "secret"]
      ["id"] ["secret"] [] ["secret"] ["name"]).1 "id" (by simp)
  · exact (C10_select_always_keeps_primary_and_persist ctx0 ["id", "name", "secret"]
      ["id"] ["secret"] [] ["secret"] ["name"]).2.1 "name" (by simp)
  · exact (C10_select_always_keeps_primary_and_persist ctx0 ["id", "name", "secret"]
      ["id"] ["secret"] [] ["secret"] ["name"]).2.2 "secret" (by simp)
      (by simp [getAllowedColumns]) (by simp) (by simp)

/-- C1 counterexample — the claim's formula places the auth filter inside
the `$and` even when the auth rule produced an or-condition.  With an `or`
function returning `{role: "admin"}` and a `filter` function returning
`{owner: 7}`, the interceptor's final search is
`{$or: [{role: "admin"}, {$and: [...search]}]}` with NO auth-filter element
— it differs from the claim's
`{$or: [authOr, {$and: [authFilter, ...search]}]}`. -/
theorem C1_or_branch_has_no_auth_filter_cex :
    interceptSearch
      (some ⟨some (fun _ => .obj [("role", .str "admin")]),
        some (fun _ => .obj [("owner", .num 7)])⟩)
      (.obj []) (getSearch none [] [] [] (.cond none) true) ≠
    .obj [("$or", .arr [.obj [("role", .str "admin")],
      .obj [("$and", .arr [.obj [("owner", .num 7)], .obj []])]])] := by
  intro h
  simp [interceptSearch, getAuth, getSearch, optionsFilterOf,
    getSearchClientPart, jsTruthy] at h

/-- C1 amended — when the configured auth `or` function produced a (truthy)
condition, the final search is `{$or: [authOr, {$and: [...search]}]}` with
the auth filter absent and its function never invoked; otherwise it is
`{$and: [authFilter, ...search]}` with the auth filter first (its falsy
results defaulting to `{}`); and, for a non-function options filter, the
`$and` list is `paramsSearch ++ optionsFilter ++ clientSearch` exactly. -/
theorem C1_final_search_shape (orf ff : JsVal → JsVal) (user : JsVal)
    (paramsSearch : List JsVal) (psearch : Option JsVal)
    (pFilter pOr : List QueryFilterC) (fopt : FilterOpt) (isReadAll : Bool) :
    (jsTruthy (orf user) = true →
      interceptSearch (some ⟨some orf, some ff⟩) user
          (getSearch psearch pFilter pOr paramsSearch fopt isReadAll) =
        .obj [("$or", .arr [orf user, .obj [("$and",
          .arr (getSearch psearch pFilter pOr paramsSearch fopt isReadAll))]])]
      ∧ (getAuth (some ⟨some orf, some ff⟩) user).filterInvoked = false)
    ∧ (jsTruthy (orf user) = false →
      interceptSearch (some ⟨some orf, some ff⟩) user
          (getSearch psearch pFilter pOr paramsSearch fopt isReadAll) =
        .obj [("$and", .arr ((if jsTruthy (ff user) then ff user else .obj []) ::
          getSearch psearch pFilter pOr paramsSearch fopt isReadAll))])
    ∧ (fopt.isFn = false →
      getSearch psearch pFilter pOr paramsSearch fopt isReadAll =
        paramsSearch ++ optionsFilterOf fopt ++
          getSearchClientPart psearch pFilter pOr) := by
  refine ⟨?_, ?_, ?_⟩
  · intro hor
    constructor
    · simp [interceptSearch, getAuth, hor]
    · simp [getAuth, hor]
  · intro hor
    simp [interceptSearch, getAuth, hor]
  · intro hfn
    cases fopt with
    | fn f => simp [FilterOpt.isFn] at hfn
    | arr fs => rfl
    | cond c => rfl

/-- C1 witness — a concrete request: with the or-function returning
`{t: 1}`, the final search wraps it in `$or` over the `$and` of the empty
options filter and the client filter, the filter function is not invoked;
with the or-function returning `undefined`, the filter's `{u: 2}` leads the
`$and` list. -/
theorem C1_final_search_shape_witness :
    interceptSearch
        (some ⟨some (fun _ => .obj [("t", .num 1)]),
          some (fun _ => .obj [("u", .num 2)])⟩)
        (.obj [])
        (getSearch none [⟨"s", "$eq", .str "a"⟩] [] [] (.cond none) true) =
      .obj [("$or", .arr [.obj [("t", .num 1)],
        .obj [("$and", .arr [.obj [],
          .obj [("s", .obj [("$eq", .str "a")])]])]])]
    ∧ (getAuth (some ⟨some (fun _ => .obj [("t", .num 1)]),
        some (fun _ => .obj [("u", .num 2)])⟩) (.obj [])).filterInvoked = false
    ∧ interceptSearch
        (some ⟨some (fun _ => .undef),
          some (fun _ => .obj [("u", .num 2)])⟩)
        (.obj [])
        (getSearch none [⟨"s", "$eq", .str "a"⟩] [] [] (.cond none) true) =
      .obj [("$and", .arr [.obj [("u", .num 2)], .obj [],
        .obj [("s", .obj [("$eq", .str "a")])]])] := by
  refine ⟨?_, ?_, ?_⟩
  · have h := ((C1_final_search_shape (fun _ => .obj [("t", .num 1)])
      (fun _ => .obj [("u", .num 2)]) (.obj []) [] none
      [⟨"s", "$eq", .str "a"⟩] [] (.cond none) true).1 rfl).1
    simpa [getSearch, optionsFilterOf, getSearchClientPart,
      convertFilterToSearch] using h
  · exact ((C1_final_search_shape (fun _ => .obj [("t", .num 1)])
      (fun _ => .obj [("u", .num 2)]) (.obj []) [] none
      [⟨"s", "$eq", .str "a"⟩] [] (.cond none) true).1 rfl).2
  · have h := (C1_final_search_shape (fun _ => .undef)
      (fun _ => .obj [("u", .num 2)]) (.obj []) [] none
      [⟨"s", "$eq", .str "a"⟩] [] (.cond none) true).2.1 rfl
    simpa [getSearch, optionsFilterOf, getSearchClientPart,
      convertFilterToSearch, jsTruthy] using h

end NestjsCrud
